import Mathlib

/-!
Verification development for `mseedconvert.c` (miniSEED record conversion tool).

The definitions below are a shallow embedding of the program's record-conversion
logic: the per-record shortcut-repack policy evaluation in `main` (the
`repackheaderV3` flag), the shortcut decision, the extra-header replacement,
`retired_encoding`, `extraheader_init`, and the float/double-to-integer sample
conversion loops of `convertsamples`.  Machine integers are modelled as `Int`
(`int`, `int8_t`, `int64_t` fields) or `Nat` (unsigned); C `float`/`double`
sample values are modelled as exact rationals (`ℚ`), which agrees with IEEE
arithmetic on all the concrete values used in the theorems below.
-/

set_option autoImplicit false

/-- libmseed encoding constant: text (ASCII) payload. -/
def DE_ASCII : Int := 0

/-- libmseed encoding constant: 16-bit integers. -/
def DE_INT16 : Int := 1

/-- libmseed encoding constant: 32-bit integers. -/
def DE_INT32 : Int := 3

/-- libmseed encoding constant: 32-bit floats. -/
def DE_FLOAT32 : Int := 4

/-- libmseed encoding constant: 64-bit floats. -/
def DE_FLOAT64 : Int := 5

/-- libmseed encoding constant: Steim-1 compressed integers. -/
def DE_STEIM1 : Int := 10

/-- libmseed encoding constant: Steim-2 compressed integers. -/
def DE_STEIM2 : Int := 11

/-- libmseed swap-flag bit: payload byte swap needed (`MSSWAP_PAYLOAD`). -/
def MSSWAP_PAYLOAD : Nat := 2

/-- The fields of a parsed `MS3Record` that the conversion policy reads:
`encoding` (`int8_t`), `swapflag` (bitset), `samplecnt` (`int64_t`). -/
structure MS3Record where
  encoding : Int
  swapflag : Nat
  samplecnt : Int
deriving DecidableEq, Repr

/-- The run configuration derived from the command line: `forcerepack` (`-f`),
`packversion` (`-F`, default 3), `packencoding` (`-E`, `-1` when unspecified),
and the host byte order probed by `ms_bigendianhost ()`. -/
structure Config where
  forcerepack : Bool
  packversion : Int
  packencoding : Int
  bigendianhost : Bool
deriving DecidableEq, Repr

/-- `msr->swapflag & MSSWAP_PAYLOAD`: whether a payload byte swap is pending. -/
def payloadSwap (msr : MS3Record) : Bool :=
  msr.swapflag &&& MSSWAP_PAYLOAD != 0

/-- The `repackheaderV3` evaluation block of `main` (mseedconvert.c lines
87-119), as a function of the flag value it starts from.  Inside the gate
(`forcerepack == 0 && packversion == 3 && (packencoding < 0 ||
packencoding == msr->encoding)`) the if/else-if chain sets the flag to 1 under
the byte-order conditions and otherwise leaves it; outside the gate the flag is
untouched.  In the C source the flag variable is declared outside the read
loop, so the value it starts from for one record is the value left by the
previous record. -/
def evalRepackFlag (cfg : Config) (msr : MS3Record) (repackheaderV3 : Bool) : Bool :=
  if cfg.forcerepack = false ∧ cfg.packversion = 3 ∧
      (cfg.packencoding < 0 ∨ cfg.packencoding = msr.encoding) then
    if msr.encoding = DE_STEIM1 ∨ msr.encoding = DE_STEIM2 then
      if cfg.bigendianhost ∧ ¬ payloadSwap msr then true
      else if ¬ cfg.bigendianhost ∧ payloadSwap msr then true
      else repackheaderV3
    else if msr.encoding = DE_INT16 ∨ msr.encoding = DE_INT32 ∨
        msr.encoding = DE_FLOAT32 ∨ msr.encoding = DE_FLOAT64 then
      if cfg.bigendianhost ∧ payloadSwap msr then true
      else if ¬ cfg.bigendianhost ∧ ¬ payloadSwap msr then true
      else repackheaderV3
    else if msr.encoding = DE_ASCII then true
    else repackheaderV3
  else repackheaderV3

/-- The shortcut-path condition of `main` line 122:
`packversion == 3 && (repackheaderV3 || msr->samplecnt == 0)`, where
`repackheaderV3` is the flag value after this record's evaluation block. -/
def shortcutDecision (cfg : Config) (msr : MS3Record) (flag : Bool) : Bool :=
  if cfg.packversion = 3 ∧ (evalRepackFlag cfg msr flag = true ∨ msr.samplecnt = 0)
  then true else false

/-- The `repackheaderV3` flag value after the read loop has processed the given
records, starting from its initialization to 0 before the loop. -/
def flagAfter (cfg : Config) (recs : List MS3Record) : Bool :=
  recs.foldl (fun f r => evalRepackFlag cfg r f) false

/-- `retired_encoding` (mseedconvert.c lines 496-509): 1 exactly for the
twelve retired legacy encodings, 0 otherwise. -/
def retired_encoding (encoding : Int) : Bool :=
  if encoding = 2 ∨ encoding = 12 ∨ encoding = 13 ∨
      encoding = 14 ∨ encoding = 15 ∨ encoding = 16 ∨
      encoding = 17 ∨ encoding = 18 ∨ encoding = 30 ∨
      encoding = 31 ∨ encoding = 32 ∨ encoding = 33 then
    true
  else
    false

/-- C conversion of a value to `int8_t` (two's-complement wrap), applied where
the source passes an `int` to the `int8_t` parameter of `retired_encoding`. -/
def toInt8 (x : Int) : Int :=
  (x + 128) % 256 - 128

/-- A metadata (extra header) document, abstracted as a flat JSON object: an
ordered list of keys with integer or `null` values.  The C code holds such a
document only in serialized form (`msr->extra` / the global `extraheader`
buffer); this abstraction names its keys so that key-retention properties can
be stated. -/
def MetaDoc : Type := List (String × Option Int)

instance : DecidableEq MetaDoc := by
  unfold MetaDoc
  infer_instance

/-- The extra-header step of `main` (lines 133-140, repeated at 177-184): when
a replacement document is configured (`extraheaderlength` nonzero), the
record's existing extra headers are freed and the pointer is set to the
configured replacement; otherwise the record's extra headers are untouched. -/
def applyExtraHeaders (extraheader : Option MetaDoc) (extra : Option MetaDoc) :
    Option MetaDoc :=
  match extraheader with
  | some repl => some repl
  | none => extra

/-- `extraheader_init` (lines 260-315), as a function of the size reported by
`json_serialization_size` for the parsed file (the minimized serialization
length plus one for the NUL terminator).  Returns the resulting
`extraheaderlength` (a `uint16_t`, hence the mod 2^16 on the assignment
`extraheaderlength = extrasize - 1`), or `none` on the failure paths: size
zero, or size above 65,535.  The memory-allocation and serialization failure
paths are not modelled. -/
def extraheader_init (extrasize : Nat) : Option Nat :=
  if extrasize = 0 then none
  else if 65535 < extrasize then none
  else some ((extrasize - 1) % 65536)

/-- A buffer cell of `msr->datasamples` during an in-place conversion: either
a still-unconverted floating-point sample or an already-written `int32_t`. -/
inductive Cell
  | flt (x : ℚ)
  | int (n : Int)
deriving DecidableEq, Repr

/-- C cast of a floating-point value to `int32_t`: truncation toward zero
(the 32-bit range is not modelled; no claim exercises it). -/
def ctrunc (x : ℚ) : Int :=
  if 0 ≤ x then ⌊x⌋ else ⌈x⌉

/-- The sub-integer loss checked by `convertsamples`:
`fdata[idx] - (int32_t)fdata[idx]` (resp. `ddata[idx]`). -/
def convertLoss (x : ℚ) : ℚ :=
  x - ctrunc x

/-- The conversion written by `convertsamples`:
`(int32_t) (fdata[idx] + 0.5)` (resp. `ddata[idx]`). -/
def crround (x : ℚ) : Int :=
  ctrunc (x + 1/2)

/-- The float-to-integer loop of `convertsamples` (lines 380-391; the
double-to-integer loop at lines 395-406 is element-wise identical), acting
in place on `msr->datasamples`: scan the samples in order; at the first
element whose loss exceeds `0.000001` return failure with the buffer as it
stands (converted prefix, untouched suffix); otherwise overwrite the element
with the rounded integer and continue.  Returns the final buffer contents and
the success flag. -/
def floatToIntScan : List ℚ → List Cell × Bool
  | [] => ([], true)
  | x :: rest =>
    if 1/1000000 < convertLoss x then
      (Cell.flt x :: rest.map Cell.flt, false)
    else
      let (cs, ok) := floatToIntScan rest
      (Cell.int (crround x) :: cs, ok)

/-- The external libmseed calls made by the read loop, abstracted as oracles:
`repack` is `msr3_repack_mseed3` (record length, negative on failure),
`unpack` is `msr3_unpack_data` (sample count, negative on failure),
`convertOk` is whether `convertsamples` succeeds when it is invoked, and
`pack` is `msr3_pack` (packed record count, -1 on failure). -/
structure Oracles where
  repack : MS3Record → Int
  unpack : MS3Record → Int
  convertOk : MS3Record → Bool
  pack : MS3Record → Int

/-- The read loop of `main` (lines 81-230), given the records the reader
yields, the carried `repackheaderV3` flag, and the external-call oracles.
Returns the processing trace: one entry per record actually read, paired with
the packed-record count the loop accumulated for it.  Faithful control flow:
every failure path (`msr3_repack_mseed3` negative, `msr3_unpack_data`
negative, retired output encoding, `convertsamples` failure) executes `break`,
ending the loop with no output for that record — except a `msr3_pack` failure,
which logs, accumulates the -1 result, and continues with the next record. -/
def runLoop (cfg : Config) (orc : Oracles) : Bool → List MS3Record → List (MS3Record × Int)
  | _, [] => []
  | flag, msr :: rest =>
    let nf := evalRepackFlag cfg msr flag
    if cfg.packversion = 3 ∧ (nf = true ∨ msr.samplecnt = 0) then
      if orc.repack msr < 0 then [(msr, 0)]
      else (msr, 1) :: runLoop cfg orc nf rest
    else
      if orc.unpack msr < 0 then [(msr, 0)]
      else if retired_encoding (toInt8
          (if 0 ≤ cfg.packencoding then cfg.packencoding else msr.encoding)) = true then
        [(msr, 0)]
      else if 0 ≤ cfg.packencoding ∧ ¬ msr.encoding = cfg.packencoding ∧
          orc.convertOk msr = false then
        [(msr, 0)]
      else (msr, orc.pack msr) :: runLoop cfg orc nf rest

/-- With the force-repack flag set, the evaluation block's gate fails and the
`repackheaderV3` flag is left at the value it started from. -/
theorem evalRepackFlag_force (cfg : Config) (msr : MS3Record) (f : Bool)
    (h : cfg.forcerepack = true) : evalRepackFlag cfg msr f = f := by
  unfold evalRepackFlag
  rw [if_neg]
  rintro ⟨hf, -⟩
  rw [h] at hf
  cases hf

/-- With the force-repack flag set, the carried `repackheaderV3` flag can
never become true across any sequence of records. -/
theorem flagAfter_force (cfg : Config) (recs : List MS3Record)
    (h : cfg.forcerepack = true) : flagAfter cfg recs = false := by
  have hgen : ∀ (l : List MS3Record) (b : Bool),
      l.foldl (fun f r => evalRepackFlag cfg r f) b = b := by
    intro l
    induction l with
    | nil => intro b; rfl
    | cons r rs ih =>
      intro b
      rw [List.foldl_cons, evalRepackFlag_force cfg r b h, ih b]
  exact hgen recs false

/-- C8: the retired-encoding predicate is a pure total function of the
encoding value, true for exactly the twelve legacy encodings
2, 12, 13, 14, 15, 16, 17, 18, 30, 31, 32, 33 and false for every other
value. -/
theorem c8_retired_encoding_exact (e : Int) :
    retired_encoding e = true ↔
      (e = 2 ∨ e = 12 ∨ e = 13 ∨ e = 14 ∨ e = 15 ∨ e = 16 ∨
        e = 17 ∨ e = 18 ∨ e = 30 ∨ e = 31 ∨ e = 32 ∨ e = 33) := by
  unfold retired_encoding
  split_ifs with h <;> simp [h]

/-- C10: for a replacement document whose minimized serialization is `L`
bytes long (so `json_serialization_size` reports `L + 1` including the NUL
terminator), initialization fails whenever `L` exceeds 65,535; and whenever
initialization succeeds, the stored `extraheaderlength` equals `L` and fits
the 16-bit length field. -/
theorem c10_extraheader_size_guard (L : Nat) :
    (65535 < L → extraheader_init (L + 1) = none) ∧
      (∀ r : Nat, extraheader_init (L + 1) = some r → r = L ∧ r < 65536) := by
  constructor
  · intro h
    unfold extraheader_init
    rw [if_neg (by omega), if_pos (by omega)]
  · intro r hr
    unfold extraheader_init at hr
    rw [if_neg (by omega)] at hr
    by_cases h1 : 65535 < L + 1
    · rw [if_pos h1] at hr
      cases hr
    · rw [if_neg h1] at hr
      have : (L + 1 - 1) % 65536 = r := by
        injection hr
      omega

/-- C10 witness: a document of 65,536 serialized bytes is rejected; one of
10 serialized bytes is accepted and stored with length 10. -/
theorem c10_witness :
    extraheader_init (65536 + 1) = none ∧ ((10 : Nat) = 10 ∧ (10 : Nat) < 65536) :=
  ⟨(c10_extraheader_size_guard 65536).1 (by decide),
    (c10_extraheader_size_guard 10).2 10 (by decide)⟩

/-- C3 counterexample: with existing metadata `{"a":1,"b":2}` and configured
document `{"b":null,"c":3}`, the code stores the configured document itself
(wholesale replacement); key `"a"`, unnamed by the document, is not retained,
so the result is not the merge `{"a":1,"c":3}` the claim requires. -/
theorem c3_counterexample :
    applyExtraHeaders (some [("b", none), ("c", some 3)])
        (some [("a", some 1), ("b", some 2)]) =
      some [("b", none), ("c", some 3)] ∧
      applyExtraHeaders (some [("b", none), ("c", some 3)])
        (some [("a", some 1), ("b", some 2)]) ≠
      some [("a", some 1), ("c", some 3)] := by
  refine ⟨rfl, ?_⟩
  intro h
  injection h with h1
  exact absurd h1 (by decide)

/-- C3 amended: applying the configured replacement document replaces the
record's metadata wholesale — the result is the configured document itself,
independent of the record's previous metadata; with no replacement
configured the metadata is untouched. -/
theorem c3_amended_replaces_wholesale (repl : MetaDoc) (prev : Option MetaDoc) :
    applyExtraHeaders (some repl) prev = some repl ∧
      applyExtraHeaders none prev = prev :=
  ⟨rfl, rfl⟩

/-- C1: for a record evaluated with a clear flag, under version-3 output,
force-repack off, and requested encoding unspecified or equal to the
record's: Steim1/Steim2 records are shortcut-eligible exactly when the
effective payload byte order is big-endian (host endianness differs from the
pending-swap bit), INT16/INT32/FLOAT32/FLOAT64 records exactly when it is
little-endian (host endianness equals the pending-swap bit), text records
always, and records with any other encoding never. -/
theorem c1_shortcut_truthtable (cfg : Config) (msr : MS3Record)
    (hf : cfg.forcerepack = false) (hv : cfg.packversion = 3)
    (he : cfg.packencoding < 0 ∨ cfg.packencoding = msr.encoding) :
    evalRepackFlag cfg msr false = true ↔
      (((msr.encoding = DE_STEIM1 ∨ msr.encoding = DE_STEIM2) ∧
          cfg.bigendianhost ≠ payloadSwap msr) ∨
        ((msr.encoding = DE_INT16 ∨ msr.encoding = DE_INT32 ∨
            msr.encoding = DE_FLOAT32 ∨ msr.encoding = DE_FLOAT64) ∧
          cfg.bigendianhost = payloadSwap msr) ∨
        msr.encoding = DE_ASCII) := by
  have hg : cfg.forcerepack = false ∧ cfg.packversion = 3 ∧
      (cfg.packencoding < 0 ∨ cfg.packencoding = msr.encoding) := ⟨hf, hv, he⟩
  unfold evalRepackFlag
  rw [if_pos hg]
  by_cases hs : msr.encoding = DE_STEIM1 ∨ msr.encoding = DE_STEIM2
  · rw [if_pos hs]
    have hi : ¬ (msr.encoding = DE_INT16 ∨ msr.encoding = DE_INT32 ∨
        msr.encoding = DE_FLOAT32 ∨ msr.encoding = DE_FLOAT64) := by
      rcases hs with h | h <;> rw [h] <;> decide
    have ha : ¬ msr.encoding = DE_ASCII := by
      rcases hs with h | h <;> rw [h] <;> decide
    cases hbe : cfg.bigendianhost <;> cases hps : payloadSwap msr <;>
      simp [hs, hi, ha, hbe, hps]
  · rw [if_neg hs]
    by_cases hi : msr.encoding = DE_INT16 ∨ msr.encoding = DE_INT32 ∨
        msr.encoding = DE_FLOAT32 ∨ msr.encoding = DE_FLOAT64
    · rw [if_pos hi]
      have ha : ¬ msr.encoding = DE_ASCII := by
        rcases hi with h | h | h | h <;> rw [h] <;> decide
      cases hbe : cfg.bigendianhost <;> cases hps : payloadSwap msr <;>
        simp [hs, hi, ha, hbe, hps]
    · rw [if_neg hi]
      by_cases ha : msr.encoding = DE_ASCII
      · rw [if_pos ha]
        simp [hs, hi, ha]
      · rw [if_neg ha]
        simp [hs, hi, ha]

/-- C1 witness: a Steim-1 record with a pending payload swap on a
little-endian host (effective big-endian payload), default configuration. -/
theorem c1_witness :
    evalRepackFlag ⟨false, 3, -1, false⟩ ⟨10, 2, 100⟩ false = true ↔
      ((((10 : Int) = DE_STEIM1 ∨ (10 : Int) = DE_STEIM2) ∧
          (false ≠ payloadSwap ⟨10, 2, 100⟩)) ∨
        (((10 : Int) = DE_INT16 ∨ (10 : Int) = DE_INT32 ∨
            (10 : Int) = DE_FLOAT32 ∨ (10 : Int) = DE_FLOAT64) ∧
          (false = payloadSwap ⟨10, 2, 100⟩)) ∨
        (10 : Int) = DE_ASCII) :=
  c1_shortcut_truthtable ⟨false, 3, -1, false⟩ ⟨10, 2, 100⟩ rfl rfl
    (Or.inl (by decide))

/-- C2: divergence witnessing the loop-carried `repackheaderV3` flag.  With
default configuration on a little-endian host, a Steim-1 record with no
pending payload swap takes the shortcut path when processed after a record
that set the flag, but not when processed alone — the decision is not a
function of the record and configuration only.  The code's own usage text
states each record is converted independently, so this is a slip in the code
(the flag is never reset between records). -/
theorem c2_sticky_flag_divergence :
    shortcutDecision ⟨false, 3, -1, false⟩ ⟨DE_STEIM1, 0, 100⟩
        (flagAfter ⟨false, 3, -1, false⟩ [⟨DE_STEIM1, 2, 100⟩]) = true ∧
      shortcutDecision ⟨false, 3, -1, false⟩ ⟨DE_STEIM1, 0, 100⟩
        (flagAfter ⟨false, 3, -1, false⟩ []) = false := by
  constructor <;> decide

/-- C7 counterexample: with force-full-repack set (and version-3 output), a
record with `samplecnt == 0` still takes the header-only shortcut path,
because the shortcut condition tests `repackheaderV3 || msr->samplecnt == 0`
independently of the force flag. -/
theorem c7_counterexample :
    (⟨true, 3, -1, false⟩ : Config).forcerepack = true ∧
      shortcutDecision ⟨true, 3, -1, false⟩ ⟨10, 0, 0⟩ false = true := by
  constructor <;> decide

/-- C7 amended: an output version other than 3 never takes the shortcut; with
force-full-repack set the carried flag stays clear and records with a nonzero
sample count never take the shortcut; but under version-3 output a record
with `samplecnt == 0` takes the shortcut regardless of the force flag. -/
theorem c7_amended_force_version (cfg : Config) (msr : MS3Record) (flag : Bool)
    (recs : List MS3Record) :
    (cfg.packversion ≠ 3 → shortcutDecision cfg msr flag = false) ∧
      (cfg.forcerepack = true → flagAfter cfg recs = false) ∧
      (cfg.forcerepack = true → cfg.packversion = 3 → msr.samplecnt ≠ 0 →
        shortcutDecision cfg msr (flagAfter cfg recs) = false) ∧
      (cfg.packversion = 3 → msr.samplecnt = 0 →
        shortcutDecision cfg msr flag = true) := by
  refine ⟨?_, ?_, ?_, ?_⟩
  · intro h
    unfold shortcutDecision
    rw [if_neg]
    rintro ⟨hv, -⟩
    exact h hv
  · intro h
    exact flagAfter_force cfg recs h
  · intro hforce hv hcnt
    unfold shortcutDecision
    rw [if_neg]
    rintro ⟨-, hor⟩
    rw [flagAfter_force cfg recs hforce,
      evalRepackFlag_force cfg msr false hforce] at hor
    rcases hor with hor | hor
    · cases hor
    · exact hcnt hor
  · intro hv hcnt
    unfold shortcutDecision
    rw [if_pos ⟨hv, Or.inr hcnt⟩]

/-- C7 amended witness: concrete instances of the three behaviors — version-2
output takes no shortcut; forced version-3 output with samples takes no
shortcut; forced version-3 output with zero samples takes the shortcut. -/
theorem c7_amended_witness :
    shortcutDecision ⟨false, 2, -1, false⟩ ⟨10, 0, 5⟩ false = false ∧
      shortcutDecision ⟨true, 3, -1, false⟩ ⟨10, 2, 5⟩
        (flagAfter ⟨true, 3, -1, false⟩ [⟨10, 2, 5⟩]) = false ∧
      shortcutDecision ⟨true, 3, -1, false⟩ ⟨10, 2, 0⟩ false = true :=
  ⟨(c7_amended_force_version ⟨false, 2, -1, false⟩ ⟨10, 0, 5⟩ false []).1 (by decide),
    (c7_amended_force_version ⟨true, 3, -1, false⟩ ⟨10, 2, 5⟩ false
      [⟨10, 2, 5⟩]).2.2.1 rfl rfl (by decide),
    (c7_amended_force_version ⟨true, 3, -1, false⟩ ⟨10, 2, 0⟩ false []).2.2.2 rfl rfl⟩

/-- C9 counterexample: a two-record version-2 run in which `msr3_pack` fails
on the first record (`-1`).  The trace shows the loop logs the failure,
accumulates the `-1`, and still reads and packs the second record — the run
does not abort at the failing record's boundary. -/
theorem c9_counterexample :
    runLoop ⟨false, 2, -1, false⟩
        ⟨fun _ => 100, fun _ => 10, fun _ => true,
          fun r => if r.samplecnt = 10 then -1 else 1⟩
        false [⟨DE_INT32, 0, 10⟩, ⟨DE_INT32, 0, 20⟩] =
      [(⟨DE_INT32, 0, 10⟩, -1), (⟨DE_INT32, 0, 20⟩, 1)] := by
  decide

/-- C9 amended: when a record reaches the full-pack step (shortcut not taken,
unpack succeeded, output encoding not retired, sample conversion not failed)
and `msr3_pack` returns `-1`, the loop records the `-1` for that record and
continues with the remaining records instead of aborting. -/
theorem c9_amended_pack_failure_continues (cfg : Config) (orc : Oracles)
    (flag : Bool) (msr : MS3Record) (rest : List MS3Record)
    (hns : ¬ (cfg.packversion = 3 ∧
      (evalRepackFlag cfg msr flag = true ∨ msr.samplecnt = 0)))
    (hu : ¬ orc.unpack msr < 0)
    (hr : ¬ retired_encoding (toInt8
      (if 0 ≤ cfg.packencoding then cfg.packencoding else msr.encoding)) = true)
    (hc : ¬ (0 ≤ cfg.packencoding ∧ ¬ msr.encoding = cfg.packencoding ∧
      orc.convertOk msr = false))
    (hp : orc.pack msr = -1) :
    runLoop cfg orc flag (msr :: rest) =
      (msr, -1) :: runLoop cfg orc (evalRepackFlag cfg msr flag) rest := by
  simp only [runLoop]
  rw [if_neg hns, if_neg hu, if_neg hr, if_neg hc, hp]

/-- C9 amended witness: a single version-2 record whose pack fails is traced
with `-1` and the loop proceeds to the (empty) remainder. -/
theorem c9_amended_witness :
    runLoop ⟨false, 2, -1, false⟩
        ⟨fun _ => 1, fun _ => 7, fun _ => true, fun _ => -1⟩
        false [⟨DE_INT32, 0, 7⟩] =
      (⟨DE_INT32, 0, 7⟩, -1) ::
        runLoop ⟨false, 2, -1, false⟩
          ⟨fun _ => 1, fun _ => 7, fun _ => true, fun _ => -1⟩
          (evalRepackFlag ⟨false, 2, -1, false⟩ ⟨DE_INT32, 0, 7⟩ false) [] :=
  c9_amended_pack_failure_continues ⟨false, 2, -1, false⟩
    ⟨fun _ => 1, fun _ => 7, fun _ => true, fun _ => -1⟩
    false ⟨DE_INT32, 0, 7⟩ [] (by decide) (by decide) (by decide) (by decide) rfl

/-- Unfolding equation for the conversion scan on a nonempty buffer. -/
theorem floatToIntScan_cons (x : ℚ) (rest : List ℚ) :
    floatToIntScan (x :: rest) =
      if 1/1000000 < convertLoss x then
        (Cell.flt x :: rest.map Cell.flt, false)
      else
        (Cell.int (crround x) :: (floatToIntScan rest).1, (floatToIntScan rest).2) := by
  cases h : floatToIntScan rest with
  | mk cs ok => simp only [floatToIntScan, h]

/-- When no element's loss exceeds the epsilon, the scan converts every
element in place and succeeds. -/
theorem floatToIntScan_ok (xs : List ℚ)
    (h : ∀ y ∈ xs, ¬ 1/1000000 < convertLoss y) :
    floatToIntScan xs = (xs.map fun y => Cell.int (crround y), true) := by
  induction xs with
  | nil => rfl
  | cons x rest ih =>
    rw [floatToIntScan_cons, if_neg (h x (by simp)),
      ih (fun y hy => h y (by simp [hy]))]
    simp

/-- When the first offending element is `x`, the scan stops there: the
elements before `x` have been overwritten with their converted values, while
`x` and everything after it keep their original floating-point values, and
the scan reports failure. -/
theorem floatToIntScan_fail (pre : List ℚ) (x : ℚ) (post : List ℚ)
    (hpre : ∀ y ∈ pre, ¬ 1/1000000 < convertLoss y)
    (hx : 1/1000000 < convertLoss x) :
    floatToIntScan (pre ++ x :: post) =
      (pre.map (fun y => Cell.int (crround y)) ++ Cell.flt x :: post.map Cell.flt,
        false) := by
  induction pre with
  | nil =>
    rw [List.nil_append, floatToIntScan_cons, if_pos hx]
    simp
  | cons p ps ih =>
    rw [List.cons_append, floatToIntScan_cons, if_neg (hpre p (by simp)),
      ih (fun y hy => hpre y (by simp [hy]))]
    simp

/-- The scan fails exactly when some element's loss exceeds the epsilon. -/
theorem floatToIntScan_false_iff (xs : List ℚ) :
    (floatToIntScan xs).2 = false ↔ ∃ y ∈ xs, 1/1000000 < convertLoss y := by
  induction xs with
  | nil => simp [floatToIntScan]
  | cons x rest ih =>
    rw [floatToIntScan_cons]
    by_cases hx : 1/1000000 < convertLoss x
    · rw [if_pos hx]
      exact iff_of_true rfl ⟨x, by simp, hx⟩
    · simp only [if_neg hx]
      rw [ih]
      constructor
      · rintro ⟨y, hy, hl⟩
        exact ⟨y, by simp [hy], hl⟩
      · rintro ⟨y, hy, hl⟩
        rcases List.mem_cons.mp hy with rfl | hy
        · exact absurd hl hx
        · exact ⟨y, hy, hl⟩

/-- C4 counterexample: converting the buffer `[2.0, 1.5]` to integers fails
(loss `0.5` at the second element), but the reported-failure state has the
first element already overwritten in place with the integer `2` — the buffer
is not left unmodified. -/
theorem c4_counterexample :
    (floatToIntScan [2, 3/2]).2 = false ∧
      (floatToIntScan [2, 3/2]).1 ≠ [Cell.flt 2, Cell.flt (3/2)] := by
  have h : floatToIntScan [2, 3/2] = ([Cell.int 2, Cell.flt (3/2)], false) := by
    norm_num [floatToIntScan, convertLoss, ctrunc, crround, Int.ceil_neg]
  rw [h]
  exact ⟨rfl, by simp⟩

/-- C4 amended: when the float/double-to-integer conversion fails on the
first offending element, the elements scanned before it have been overwritten
in place with their converted integer values, while the offending element and
every later element retain their original values (the failure is not
atomic). -/
theorem c4_amended_partial_overwrite (pre : List ℚ) (x : ℚ) (post : List ℚ)
    (hpre : ∀ y ∈ pre, ¬ 1/1000000 < convertLoss y)
    (hx : 1/1000000 < convertLoss x) :
    (floatToIntScan (pre ++ x :: post)).2 = false ∧
      (floatToIntScan (pre ++ x :: post)).1 =
        pre.map (fun y => Cell.int (crround y)) ++ Cell.flt x :: post.map Cell.flt := by
  rw [floatToIntScan_fail pre x post hpre hx]
  exact ⟨rfl, rfl⟩

/-- C4 amended witness: buffer `[1.0, 1.4, 3.0]` fails at `1.4`; the first
element has been converted, the offender and the trailing element are
untouched. -/
theorem c4_amended_witness :
    (floatToIntScan ([1] ++ 7/5 :: [3])).2 = false ∧
      (floatToIntScan ([1] ++ 7/5 :: [3])).1 =
        [(1 : ℚ)].map (fun y => Cell.int (crround y)) ++
          Cell.flt (7/5) :: [(3 : ℚ)].map Cell.flt :=
  c4_amended_partial_overwrite [1] (7/5) [3]
    (by
      intro y hy
      rw [List.mem_singleton] at hy
      subst hy
      norm_num [convertLoss, ctrunc])
    (by norm_num [convertLoss, ctrunc])

/-- C5: the float/double-to-integer conversion fails exactly when some
element's sub-integer loss `x - (int32_t)x` exceeds the fixed epsilon
`0.000001`; and the first offending element in scan order aborts the whole
conversion, with none of the later elements checked or converted. -/
theorem c5_first_offender_aborts (xs : List ℚ) :
    ((floatToIntScan xs).2 = false ↔ ∃ y ∈ xs, 1/1000000 < convertLoss y) ∧
      ∀ pre x post, xs = pre ++ x :: post →
        (∀ y ∈ pre, ¬ 1/1000000 < convertLoss y) →
        1/1000000 < convertLoss x →
        floatToIntScan xs =
          (pre.map (fun y => Cell.int (crround y)) ++
            Cell.flt x :: post.map Cell.flt, false) := by
  refine ⟨floatToIntScan_false_iff xs, ?_⟩
  rintro pre x post rfl hpre hx
  exact floatToIntScan_fail pre x post hpre hx

/-- C5 witness: the buffer `[1.00001, 2.0]` (loss `0.00001 > 0.000001` at its
first element) fails immediately with nothing converted, and the trailing
element is left as a floating-point value. -/
theorem c5_witness :
    floatToIntScan ([] ++ 100001/100000 :: [2]) =
      (([] : List ℚ).map (fun y => Cell.int (crround y)) ++
        Cell.flt (100001/100000) :: [(2 : ℚ)].map Cell.flt, false) :=
  (c5_first_offender_aborts ([] ++ 100001/100000 :: [2])).2
    [] (100001/100000) [2] rfl (by simp)
    (by norm_num [convertLoss, ctrunc])

/-- C6 counterexample: the buffer `[-2.25]` passes the loss check (the loss
`-0.25` is not greater than the epsilon) and converts successfully, producing
`-1` — the C cast `(int32_t)(-2.25 + 0.5)` truncates toward zero — whereas
`floor(-2.25 + 0.5) = -2`: the output is not `floor(x + 0.5)` for this
negative input. -/
theorem c6_counterexample :
    floatToIntScan [-9/4] = ([Cell.int (-1)], true) ∧
      ⌊(-9/4 : ℚ) + 1/2⌋ ≠ (-1 : Int) := by
  constructor
  · norm_num [floatToIntScan, convertLoss, ctrunc, crround, Int.ceil_neg]
  · norm_num

/-- C6 amended: on success every output element is
`(int32_t)(x + 0.5)` — truncation toward zero of `x + 0.5` — which agrees
with `floor(x + 0.5)` for non-negative inputs but not in general for
negative ones. -/
theorem c6_amended_trunc_semantics (xs : List ℚ) :
    ((floatToIntScan xs).2 = true →
      (floatToIntScan xs).1 = xs.map fun y => Cell.int (crround y)) ∧
      ∀ x : ℚ, 0 ≤ x → crround x = ⌊x + 1/2⌋ := by
  constructor
  · intro h
    have hno : ∀ y ∈ xs, ¬ 1/1000000 < convertLoss y := by
      intro y hy hl
      have hfalse := (floatToIntScan_false_iff xs).2 ⟨y, hy, hl⟩
      rw [h] at hfalse
      cases hfalse
    rw [floatToIntScan_ok xs hno]
  · intro x hx
    unfold crround ctrunc
    rw [if_pos (by linarith)]

/-- C6 amended witness: the buffer `[2.0]` converts successfully, and for the
non-negative input `1.5` the truncation agrees with `floor(1.5 + 0.5) = 2`. -/
theorem c6_amended_witness :
    (floatToIntScan [2]).1 = [(2 : ℚ)].map (fun y => Cell.int (crround y)) ∧
      crround (3/2) = ⌊(3/2 : ℚ) + 1/2⌋ := by
  constructor
  · apply (c6_amended_trunc_semantics [2]).1
    norm_num [floatToIntScan, convertLoss, ctrunc, crround]
  · exact (c6_amended_trunc_semantics []).2 (3/2) (by norm_num)
